import Mathlib

/-!
Verification development for the MMDB (MaxMind database) core of the
repository: the metadata parser (`metadata.ts`), the binary search-tree
walker and the self-describing data-section decoder (`walker.ts`), and the
parser facade (`parser.ts`).

The TypeScript code is shallowly embedded: the database image is a list of
bytes, JavaScript numbers are `Int` (with explicit 32-bit wrap where the
JS bitwise operators coerce to Int32), decoded values are a `JSV` inductive
mirroring the JavaScript values the decoder produces, recursive decoding is
fuel-indexed (`none` = recursion budget exhausted), and thrown exceptions
are `Except.error`.

JavaScript corner conventions used throughout, noted once here:
* `data[i]` on a `Uint8Array` yields `undefined` out of bounds; every such
  read in the decoder flows into a bitwise operator or comparison, where
  `ToInt32(undefined) = 0`; the model therefore reads out-of-bounds bytes
  as `0` (`jsByte`).  The two additive contexts (`this.data[offset] + 7`
  for extended types, `29 + this.data[offset]` for size extension) would
  produce `NaN` in JS when out of bounds; the model coerces those reads to
  `0` as well, which differs from JS only on those malformed-image corners
  and on no input used by any theorem below.
* `DataView` construction (used by Double/Float/Int32-size-4 reads) throws
  a `RangeError` when the window exceeds the buffer; this is modelled as an
  explicit bounds check returning `Except.error`.
* IEEE-754 values are kept as their raw big-endian bytes (`JSV.dbl`,
  `JSV.flt`); no claim concerns floating-point arithmetic.
-/

namespace MMDB

/-- A database image: the bytes of the `Uint8Array` backing the parser. -/
abbrev Image := List (Fin 256)

/-- A JavaScript string, identified by its UTF-8 code units
(`TextDecoder` is modelled as the identity on the underlying bytes). -/
abbrev JStr := List (Fin 256)

/-- Read `this.data[o]` as the JS bitwise operators see it: the byte value
in bounds, `0` (the Int32 coercion of `undefined`) out of bounds. -/
def jsByte (img : Image) (o : Int) : Nat :=
  if 0 ≤ o then (img.getD o.toNat 0).val else 0

/-- JS `ToInt32`: wrap a nonnegative integer into `[-2^31, 2^31)`. -/
def toInt32 (n : Nat) : Int :=
  let m := n % 4294967296
  if m < 2147483648 then (m : Int) else (m : Int) - 4294967296

/-- `readUint16BE` of `MMDBDecoder`: `(data[o] << 8) | data[o+1]`. -/
def readUint16BE (img : Image) (o : Int) : Nat :=
  (jsByte img o) <<< 8 ||| jsByte img (o + 1)

/-- Accumulator loop of `readUintBE`: `result = (result << 8) | data[o+i]`. -/
def readUintBEAux (img : Image) (o : Int) : Nat → Nat → Nat
  | 0, acc => acc
  | n + 1, acc => readUintBEAux img (o + 1) n ((acc <<< 8) ||| jsByte img o)

/-- `readUintBE` of `MMDBDecoder`: big-endian accumulation of `size` bytes. -/
def readUintBE (img : Image) (o : Int) (size : Nat) : Nat :=
  readUintBEAux img o size 0

/-- `readUint32BE` of `MMDBDecoder`: the JS `|` chain coerces to Int32, so
the result is negative when the top bit of the first byte is set. -/
def readUint32BE (img : Image) (o : Int) : Int :=
  toInt32 ((jsByte img o) <<< 24 ||| (jsByte img (o + 1)) <<< 16 |||
    (jsByte img (o + 2)) <<< 8 ||| jsByte img (o + 3))

/-- Signed 32-bit big-endian value of four in-bounds bytes,
as `DataView.getInt32` computes it. -/
def int32OfBytes (b0 b1 b2 b3 : Nat) : Int :=
  toInt32 (b0 * 16777216 + b1 * 65536 + b2 * 256 + b3)

/-- `Uint8Array.subarray(a, b)` index normalisation: negative indices count
from the end, then both are clamped to `[0, length]`. -/
def jsSubarray (img : Image) (a b : Int) : Image :=
  let len : Int := img.length
  let lo := (if a < 0 then max (len + a) 0 else min a len).toNat
  let hi := (if b < 0 then max (len + b) 0 else min b len).toNat
  (img.take hi).drop lo

/-- The BigInt accumulation loop shared by Uint64/Uint128 decoding:
`result = (result << 8n) | BigInt(data[offset + i])`.  `BigInt(undefined)`
throws a `TypeError`, so an out-of-bounds read is an error here. -/
def readBigBE (img : Image) (o : Int) : Nat → Int → Except String Int
  | 0, acc => .ok acc
  | n + 1, acc =>
    if 0 ≤ o ∧ o.toNat < img.length then
      readBigBE img (o + 1) n (acc * 256 + (img.getD o.toNat 0).val)
    else .error "Cannot convert undefined to a BigInt"

/-- JavaScript values as produced by the decoder and handled by the parser
facade.  Strings carry their UTF-8 bytes; objects are insertion-ordered
field lists with unique keys (JS object semantics). -/
inductive JSV where
  | undefv
  | nullv
  | boolv (b : Bool)
  | num (n : Int)
  | big (n : Int)
  | str (s : JStr)
  | dbl (bytes : Image)
  | flt (bytes : Image)
  | bytesv (bs : Image)
  | arr (xs : List JSV)
  | obj (fields : List (JStr × JSV))
  deriving Repr

/-- Decoder cursor: `{ value, offset }`. -/
structure Cursor where
  value : JSV
  offset : Int
  deriving Repr

/-- `pointerValueOffset = [0, 2048, 526336, 0]`. -/
def pointerValueOffset (c : Nat) : Int :=
  if c = 0 then 0 else if c = 1 then 2048 else if c = 2 then 526336 else 0

/-- `MMDBDecoder.decodePointer`: returns the absolute target offset and the
cursor offset just past the pointer encoding. -/
def decodePointer (img : Image) (base : Int) (ctrl : Nat) (offset : Int) :
    Int × Int :=
  let pointerSize := (ctrl >>> 3) &&& 3
  let pointer := base + pointerValueOffset pointerSize
  let packed : Int :=
    if pointerSize = 0 then ((ctrl &&& 7) <<< 8 ||| jsByte img offset : Nat)
    else if pointerSize = 1 then
      ((ctrl &&& 7) <<< 16 ||| readUint16BE img offset : Nat)
    else if pointerSize = 2 then
      ((ctrl &&& 7) <<< 24 ||| readUintBE img offset 3 : Nat)
    else readUint32BE img offset
  (pointer + packed, offset + pointerSize + 1)

/-- `MMDBDecoder.sizeFromCtrlByte`: returns `(offset, value)`. -/
def sizeFromCtrlByte (img : Image) (ctrl : Nat) (offset : Int) : Int × Nat :=
  let size := ctrl &&& 0x1f
  if size < 29 then (offset, size)
  else if size = 29 then (offset + 1, 29 + jsByte img offset)
  else if size = 30 then (offset + 2, 285 + readUint16BE img offset)
  else (offset + 3, 65821 + readUintBE img offset 3)

/-- `decodeUtf8String`. -/
def decodeUtf8String (img : Image) (offset : Int) (size : Nat) : JStr :=
  if size = 0 then [] else jsSubarray img offset (offset + size)

/-- Decimal digits of a natural number, as string bytes. -/
def natDigits (n : Nat) : JStr :=
  (Nat.toDigits 10 n).map (fun c => (Fin.ofNat c.toNat : Fin 256))

/-- JS decimal rendering of an integer (shared by number and BigInt keys). -/
def intDecimal (n : Int) : JStr :=
  if n < 0 then 0x2d :: natDigits n.natAbs else natDigits n.toNat

/-- Comma-join of a `Uint8Array`'s bytes (its JS `toString`). -/
def natJoin : Image → JStr
  | [] => []
  | [b] => natDigits b.val
  | b :: c :: bs => natDigits b.val ++ 0x2c :: natJoin (c :: bs)

mutual

/-- JS `String(v)` as used for object property keys
(`map[key.value] = value.value` stringifies `key.value`).  Decoded map keys
are `Utf8String` values in every well-formed database; the other branches
model the JS coercions (arrays join with commas, objects render as
`"[object Object]"`, and IEEE-754 number formatting — unreachable from any
claim — is represented by an opaque marker). -/
def keyToString : JSV → JStr
  | .undefv => [0x75, 0x6e, 0x64, 0x65, 0x66, 0x69, 0x6e, 0x65, 0x64]
  | .nullv => [0x6e, 0x75, 0x6c, 0x6c]
  | .boolv true => [0x74, 0x72, 0x75, 0x65]
  | .boolv false => [0x66, 0x61, 0x6c, 0x73, 0x65]
  | .num n => intDecimal n
  | .big n => intDecimal n
  | .str s => s
  | .dbl _ => [0x23, 0x64, 0x62, 0x6c]
  | .flt _ => [0x23, 0x66, 0x6c, 0x74]
  | .bytesv bs => natJoin bs
  | .arr xs => arrJoin xs
  | .obj _ => [0x5b, 0x6f, 0x62, 0x6a, 0x65, 0x63, 0x74, 0x20, 0x4f, 0x62,
      0x6a, 0x65, 0x63, 0x74, 0x5d]

/-- Comma-join of array elements; `null` and `undefined` render empty. -/
def arrJoin : List JSV → JStr
  | [] => []
  | [x] => elemToString x
  | x :: y :: xs => elemToString x ++ 0x2c :: arrJoin (y :: xs)

/-- One array element inside a join. -/
def elemToString : JSV → JStr
  | .nullv => []
  | .undefv => []
  | v => keyToString v

end

/-- JS object property assignment `fields[k] = v`: replace an existing key
in place, otherwise append. -/
def objSet (fields : List (JStr × JSV)) (k : JStr) (v : JSV) :
    List (JStr × JSV) :=
  if fields.any (fun e => decide (e.1 = k)) then
    fields.map (fun e => if e.1 = k then (k, v) else e)
  else fields ++ [(k, v)]

/-- The decoder's recursion states: `dec` is an entry into
`MMDBDecoder.decode`, `byType` into `decodeByType`, and `arrLoop`/`mapLoop`
are the iterations of the `decodeArray`/`decodeMap` loops with the elements
accumulated so far. -/
inductive DJob where
  | dec (offset : Int)
  | byType (typ : Nat) (offset : Int) (size : Nat)
  | arrLoop (n : Nat) (offset : Int) (acc : List JSV)
  | mapLoop (n : Nat) (offset : Int) (acc : List (JStr × JSV))

/-- The body of `MMDBDecoder.decodeByType`'s `switch` (the `byType` state
below), factored out with the map/array loop entries abstracted so that
lemmas about it stay small. -/
def byTypeCore (img : Image) (mapGo arrGo : Nat → Int → Option (Except String Cursor))
    (typ : Nat) (offset : Int) (size : Nat) : Option (Except String Cursor) :=
  match typ with
  | 2 => some (.ok ⟨.str (decodeUtf8String img offset size), offset + size⟩)
  | 3 =>
    if 0 ≤ offset ∧ offset + 8 ≤ (img.length : Int) then
      some (.ok ⟨.dbl (jsSubarray img offset (offset + 8)), offset + 8⟩)
    else some (.error "RangeError")
  | 4 => some (.ok ⟨.bytesv (jsSubarray img offset (offset + size)), offset + size⟩)
  | 5 =>
    if size = 0 then some (.ok ⟨.num 0, offset⟩)
    else if size = 1 then some (.ok ⟨.num (jsByte img offset), offset + 1⟩)
    else if size = 2 then
      some (.ok ⟨.num (readUint16BE img offset), offset + 2⟩)
    else some (.error "Invalid Uint16 size")
  | 6 =>
    if size = 0 then some (.ok ⟨.num 0, offset⟩)
    else if size = 1 then some (.ok ⟨.num (jsByte img offset), offset + 1⟩)
    else if size = 2 then
      some (.ok ⟨.num (readUint16BE img offset), offset + 2⟩)
    else if size = 3 then
      some (.ok ⟨.num (readUintBE img offset 3), offset + 3⟩)
    else if size = 4 then
      some (.ok ⟨.num (readUint32BE img offset), offset + 4⟩)
    else some (.error "Invalid Uint32 size")
  | 7 => mapGo size offset
  | 8 =>
    -- Int32: sizes below 4 are explicitly decoded unsigned
    -- ("For sizes less than 4, treat as unsigned" in the source).
    if size = 0 then some (.ok ⟨.num 0, offset⟩)
    else if size < 4 then
      some (.ok ⟨.num (readUintBE img offset size), offset + size⟩)
    else
      if 0 ≤ offset ∧ offset + 4 ≤ (img.length : Int) then
        some (.ok ⟨.num (int32OfBytes (jsByte img offset)
          (jsByte img (offset + 1)) (jsByte img (offset + 2))
          (jsByte img (offset + 3))), offset + 4⟩)
      else some (.error "RangeError")
  | 9 =>
    if size = 0 then some (.ok ⟨.big 0, offset⟩)
    else if size ≤ 8 then
      match readBigBE img offset size 0 with
      | .error e => some (.error e)
      | .ok r => some (.ok ⟨.big r, offset + size⟩)
    else some (.error "Invalid Uint64 size")
  | 10 =>
    if size = 0 then some (.ok ⟨.big 0, offset⟩)
    else
      match readBigBE img offset (min size 16) 0 with
      | .error e => some (.error e)
      | .ok r => some (.ok ⟨.big r, offset + size⟩)
  | 11 => arrGo size offset
  | 12 => some (.ok ⟨.nullv, offset⟩)
  | 13 => some (.ok ⟨.nullv, offset⟩)
  | 14 => some (.ok ⟨.boolv (size ≠ 0), offset⟩)
  | 15 =>
    if 0 ≤ offset ∧ offset + 4 ≤ (img.length : Int) then
      some (.ok ⟨.flt (jsSubarray img offset (offset + 4)), offset + 4⟩)
    else some (.error "RangeError")
  | _ => some (.error "Unknown type")

/-- The decoder, fuel-indexed: one fuel unit per transition between the
recursion states above, so the fuel bounds the depth of the recursion
tree.  `none` means the budget was insufficient; every terminating
execution of the source succeeds under some finite budget, and a diverging
execution (the source has no budget and can recurse forever — see the
termination theorems below) yields `none` under every budget. -/
def decodeRun (img : Image) (base : Int) : Nat → DJob → Option (Except String Cursor)
  | 0, _ => none
  | fuel + 1, .dec offset =>
    let ctrlByte := jsByte img offset
    let offset1 := offset + 1
    let type0 := ctrlByte >>> 5
    if type0 = 1 then
      -- Pointer: decode recursively at the target, cursor stays past the
      -- pointer encoding (`decodeFast` is a transparent wrapper of `decode`).
      let t := decodePointer img base ctrlByte offset1
      match decodeRun img base fuel (.dec t.1) with
      | none => none
      | some (.error e) => some (.error e)
      | some (.ok c) => some (.ok ⟨c.value, t.2⟩)
    else
      match
        (if type0 = 0 then
          let tmp := jsByte img offset1 + 7
          if tmp < 8 then Except.error "Invalid Extended Type"
          else Except.ok (tmp, offset1 + 1)
        else Except.ok (type0, offset1) : Except String (Nat × Int)) with
      | .error e => some (.error e)
      | .ok te =>
        let s := sizeFromCtrlByte img ctrlByte te.2
        decodeRun img base fuel (.byType te.1 s.1 s.2)
  | fuel + 1, .byType typ offset size =>
    byTypeCore img (fun n o => decodeRun img base fuel (.mapLoop n o []))
      (fun n o => decodeRun img base fuel (.arrLoop n o [])) typ offset size
  | _fuel + 1, .arrLoop 0 offset acc => some (.ok ⟨.arr acc, offset⟩)
  | fuel + 1, .arrLoop (n + 1) offset acc =>
    match decodeRun img base fuel (.dec offset) with
    | none => none
    | some (.error e) => some (.error e)
    | some (.ok c) => decodeRun img base fuel (.arrLoop n c.offset (acc ++ [c.value]))
  | _fuel + 1, .mapLoop 0 offset acc => some (.ok ⟨.obj acc, offset⟩)
  | fuel + 1, .mapLoop (n + 1) offset acc =>
    -- `map[key.value] = value.value`: JS stringifies the key (see
    -- `keyToString`) and assignment replaces an existing key in place
    match decodeRun img base fuel (.dec offset) with
    | none => none
    | some (.error e) => some (.error e)
    | some (.ok k) =>
      match decodeRun img base fuel (.dec k.offset) with
      | none => none
      | some (.error e) => some (.error e)
      | some (.ok v) =>
        decodeRun img base fuel
          (.mapLoop n v.offset (objSet acc (keyToString k.value) v.value))

/-- `MMDBDecoder.decode`. -/
def decodeF (img : Image) (base : Int) (fuel : Nat) (offset : Int) :
    Option (Except String Cursor) :=
  decodeRun img base fuel (.dec offset)

/-- `MMDBDecoder.decodeByType`. -/
def decodeByTypeF (img : Image) (base : Int) (fuel : Nat) (typ : Nat)
    (offset : Int) (size : Nat) : Option (Except String Cursor) :=
  decodeRun img base fuel (.byType typ offset size)

/-- `MMDBDecoder.decodeFast`: a transparent wrapper around `decode`. -/
def decodeFastF (img : Image) (base : Int) (fuel : Nat) (offset : Int) :
    Option (Except String Cursor) :=
  decodeF img base fuel offset

/-! ### JS value helpers used by the metadata parser and the facade -/

/-- JS truthiness.  IEEE-754 zeros and NaN are falsy in JS; floats are
opaque here and treated as truthy — no claim routes a float into a
truthiness test. -/
def jsTruthy : JSV → Bool
  | .undefv => false
  | .nullv => false
  | .boolv b => b
  | .num n => decide (n ≠ 0)
  | .big n => decide (n ≠ 0)
  | .str s => decide (s ≠ [])
  | .dbl _ => true
  | .flt _ => true
  | .bytesv _ => true
  | .arr _ => true
  | .obj _ => true

/-- `typeof v === "object"` (`typeof null` is `"object"` in JS). -/
def typeofObject : JSV → Bool
  | .nullv => true
  | .arr _ => true
  | .obj _ => true
  | .bytesv _ => true
  | _ => false

/-- Property read `v[k]`, `none` = `undefined`.  Numeric-index access on
arrays/strings is not used by any modelled key. -/
def propGet (v : JSV) (k : JStr) : Option JSV :=
  match v with
  | .obj fields =>
    match fields.find? (fun e => decide (e.1 = k)) with
    | some e => some e.2
    | none => none
  | _ => none

/-- Property read with `undefined` materialised as a value. -/
def propGetD (v : JSV) (k : JStr) : JSV :=
  (propGet v k).getD .undefv

/-- The `in` operator: own property present (only objects carry them here). -/
def hasProp (v : JSV) (k : JStr) : Bool :=
  match v with
  | .obj fields => fields.any (fun e => decide (e.1 = k))
  | _ => false

/-- JS `a || b`. -/
def jsOr (a b : JSV) : JSV :=
  if jsTruthy a then a else b

/-- `Object.values(v)`. -/
def jsValues : JSV → List JSV
  | .obj fields => fields.map (fun e => e.2)
  | .arr xs => xs
  | .bytesv bs => bs.map (fun b => .num b.val)
  | .str s => s.map (fun b => .str [b])
  | _ => []

/-- Digit-string accumulation for `Number(string)`. -/
def digitsValAux : JStr → Nat → Option Nat
  | [], acc => some acc
  | b :: rest, acc =>
    if 0x30 ≤ b.val ∧ b.val ≤ 0x39 then
      digitsValAux rest (acc * 10 + (b.val - 0x30))
    else none

/-- A nonempty all-digit string value. -/
def digitsVal : JStr → Option Nat
  | [] => none
  | s => digitsValAux s 0

/-- `Number(string)`, restricted to optionally signed decimal integers
(the empty string is `0`); other numeric literal shapes (floats, hex,
whitespace) yield `none` (NaN) here and are unreachable from any claim. -/
def strParseInt : JStr → Option Int
  | [] => some 0
  | b :: rest =>
    if b.val = 0x2d then (digitsVal rest).map (fun n => -(n : Int))
    else (digitsVal (b :: rest)).map (fun n => (n : Int))

/-- `Number(v)` with `none` = NaN (or a value outside the exact-integer
fragment: floats are opaque, object/array `toString` coercion corners such
as `Number([]) = 0` are not modelled — no claim reaches them). -/
def jsToNumber : JSV → Option Int
  | .num n => some n
  | .big n => some n
  | .boolv b => some (if b then 1 else 0)
  | .nullv => some 0
  | .undefv => none
  | .str s => strParseInt s
  | .dbl _ => none
  | .flt _ => none
  | .bytesv _ => none
  | .arr _ => none
  | .obj _ => none

/-- ASCII string literal to its bytes (used for fixed property keys). -/
def asciiKey (s : String) : JStr :=
  s.data.map (fun c => (Fin.ofNat c.toNat : Fin 256))

/-! ### Metadata parser (`MMDBMetadataParser`) -/

/-- Parsed metadata record.  Numeric fields are `Option Int` with `none`
standing for NaN (or a non-integral number, see `jsToNumber`). -/
structure MMDBMetadata where
  binaryFormatMajorVersion : Option Int
  binaryFormatMinorVersion : Option Int
  buildEpoch : Option Int
  databaseType : JStr
  languages : List JSV
  description : JSV
  ipVersion : Option Int
  nodeCount : Option Int
  recordSize : Option Int
  nodeByteSize : Option Int
  searchTreeSize : Option Int
  treeDepth : Option Int
  deriving Repr

/-- `METADATA_START_MARKER` ("\xab\xcd\xefMaxMind.com"). -/
def metadataMarker : Image :=
  [0xab, 0xcd, 0xef, 0x4d, 0x61, 0x78, 0x4d, 0x69, 0x6e, 0x64, 0x2e, 0x63,
   0x6f, 0x6d]

/-- The 14-byte window at `i` equals the marker (the source compares the
bytes one by one; for the in-range `i` of the search the two agree). -/
def markerMatchAt (img : Image) (i : Nat) : Bool :=
  decide ((img.drop i).take 14 = metadataMarker)

/-- Backward linear search of `findMetadataStart`, from index `i` down
to 0; returns the offset just past the marker. -/
def findMarkerAux (img : Image) : Nat → Option Nat
  | 0 => if markerMatchAt img 0 then some 14 else none
  | i + 1 =>
    if markerMatchAt img (i + 1) then some (i + 1 + 14) else findMarkerAux img i

/-- `MMDBMetadataParser.findMetadataStart`. -/
def findMetadataStart (img : Image) : Except String Int :=
  if 14 ≤ img.length then
    match findMarkerAux img (img.length - 14) with
    | some off => .ok (off : Nat)
    | none => .error "Could not find metadata start marker"
  else .error "Could not find metadata start marker"

/-- `Math.ceil(Math.log2(nodeCount))` with the source's explicit zero case;
for positive integers this is exactly the base-2 ceiling logarithm, and the
logarithm of a negative number is NaN. -/
def calculateTreeDepth (nc : Option Int) : Option Int :=
  match nc with
  | none => none
  | some n =>
    if n = 0 then some 0
    else if 0 < n then some (Nat.clog 2 n.toNat)
    else none

/-- `Number(metadata[k] || 0)`. -/
def numField (v : JSV) (k : JStr) : Option Int :=
  jsToNumber (jsOr (propGetD v k) (.num 0))

def kBinFmtMajor : JStr := asciiKey "binary_format_major_version"
def kBinFmtMinor : JStr := asciiKey "binary_format_minor_version"
def kBuildEpoch : JStr := asciiKey "build_epoch"
def kDatabaseType : JStr := asciiKey "database_type"
def kLanguages : JStr := asciiKey "languages"
def kDescription : JStr := asciiKey "description"
def kIpVersion : JStr := asciiKey "ip_version"
def kNodeCount : JStr := asciiKey "node_count"
def kRecordSize : JStr := asciiKey "record_size"

/-- `MMDBMetadataParser.convertToMetadata`. -/
def convertToMetadata (v : JSV) : Except String MMDBMetadata :=
  if ¬ (jsTruthy v ∧ typeofObject v) then .error "Invalid metadata structure"
  else
    let nodeCount := numField v kNodeCount
    let recordSize := numField v kRecordSize
    let nodeByteSize := recordSize.map (fun r => Int.fdiv (r * 2) 8)
    .ok {
      binaryFormatMajorVersion := numField v kBinFmtMajor
      binaryFormatMinorVersion := numField v kBinFmtMinor
      buildEpoch := numField v kBuildEpoch
      databaseType := keyToString (jsOr (propGetD v kDatabaseType) (.str []))
      languages := match propGetD v kLanguages with | .arr xs => xs | _ => []
      description := jsOr (propGetD v kDescription) (.obj [])
      ipVersion := numField v kIpVersion
      nodeCount := nodeCount
      recordSize := recordSize
      nodeByteSize := nodeByteSize
      searchTreeSize :=
        match nodeCount, nodeByteSize with
        | some a, some b => some (a * b)
        | _, _ => none
      treeDepth := calculateTreeDepth nodeCount }

/-- `MMDBMetadataParser.parse`, fuel-indexed through the decoder.  The
decoder's base offset is the metadata start offset itself. -/
def parseMeta (fuel : Nat) (img : Image) : Option (Except String MMDBMetadata) :=
  match findMetadataStart img with
  | .error e => some (.error e)
  | .ok off =>
    match decodeF img off fuel off with
    | none => none
    | some (.error e) => some (.error e)
    | some (.ok c) =>
      if ¬ jsTruthy c.value then
        some (.error "Cannot parse binary database metadata")
      else some (convertToMetadata c.value)

/-- Truthiness of a numeric metadata field (NaN and 0 are falsy). -/
def optTruthy : Option Int → Bool
  | some n => decide (n ≠ 0)
  | none => false

/-- `MMDBMetadataParser.validate`. -/
def validate (m : MMDBMetadata) : Bool :=
  decide (m.databaseType ≠ []) && optTruthy m.ipVersion &&
    optTruthy m.nodeCount && optTruthy m.recordSize &&
    optTruthy m.binaryFormatMajorVersion

/-! ### Tree walker (`MMDBWalker`) -/

/-- Byte read at an offset that may be NaN (`none`): `data[NaN]` is
`undefined`, coerced to 0 by the bitwise operators. -/
def jsByteO (img : Image) (o : Option Int) (k : Nat) : Nat :=
  match o with
  | some v => jsByte img (v + k)
  | none => 0

/-- Left node reader of `createNodeReaders`, dispatched on the record size.
The default branch is unreachable: construction rejects record sizes
outside 24/28/32. -/
def readNodeLeft (img : Image) (rs : Nat) (o : Option Int) : Int :=
  if rs = 24 then
    toInt32 ((jsByteO img o 0) <<< 16 ||| (jsByteO img o 1) <<< 8 |||
      jsByteO img o 2)
  else if rs = 28 then
    toInt32 (((jsByteO img o 3 &&& 0xf0) <<< 20) ||| (jsByteO img o 0) <<< 16 |||
      (jsByteO img o 1) <<< 8 ||| jsByteO img o 2)
  else if rs = 32 then
    toInt32 ((jsByteO img o 0) <<< 24 ||| (jsByteO img o 1) <<< 16 |||
      (jsByteO img o 2) <<< 8 ||| jsByteO img o 3)
  else 0

/-- Right node reader of `createNodeReaders`. -/
def readNodeRight (img : Image) (rs : Nat) (o : Option Int) : Int :=
  if rs = 24 then
    toInt32 ((jsByteO img o 3) <<< 16 ||| (jsByteO img o 4) <<< 8 |||
      jsByteO img o 5)
  else if rs = 28 then
    toInt32 (((jsByteO img o 3 &&& 0x0f) <<< 24) ||| (jsByteO img o 4) <<< 16 |||
      (jsByteO img o 5) <<< 8 ||| jsByteO img o 6)
  else if rs = 32 then
    toInt32 ((jsByteO img o 4) <<< 24 ||| (jsByteO img o 5) <<< 16 |||
      (jsByteO img o 6) <<< 8 ||| jsByteO img o 7)
  else 0

/-- `a < b` where `b` may be NaN (every comparison with NaN is false). -/
def jsLtO (a : Int) (b : Option Int) : Bool :=
  match b with
  | some v => decide (a < v)
  | none => false

/-- `a > b` where `b` may be NaN. -/
def jsGtO (a : Int) (b : Option Int) : Bool :=
  match b with
  | some v => decide (v < a)
  | none => false

/-- Loop of `calculateIpv4StartNode`: up to 96 left steps while the
pointer is still a node index. -/
def ipv4Aux (img : Image) (rs : Nat) (nc nbs : Option Int) :
    Nat → Int → Int
  | 0, p => p
  | n + 1, p =>
    if jsLtO p nc then
      ipv4Aux img rs nc nbs n (readNodeLeft img rs (nbs.map (fun b => p * b)))
    else p

/-- `MMDBWalker.calculateIpv4StartNode`. -/
def calculateIpv4StartNode (img : Image) (rs : Nat) (m : MMDBMetadata) : Int :=
  if m.ipVersion = some 4 then 0
  else ipv4Aux img rs m.nodeCount m.nodeByteSize 96 0

/-- Constructed walker: the image, the metadata it captured, the record
size its readers were specialised to, and the precomputed IPv4 start node. -/
structure Walker where
  data : Image
  meta : MMDBMetadata
  recordSize : Nat
  ipv4Start : Int
  deriving Repr

/-- `MMDBWalker` construction (`createNodeReaders` rejects record sizes
outside 24/28/32 by throwing). -/
def createWalker (img : Image) (m : MMDBMetadata) : Except String Walker :=
  if m.recordSize = some 24 then
    .ok ⟨img, m, 24, calculateIpv4StartNode img 24 m⟩
  else if m.recordSize = some 28 then
    .ok ⟨img, m, 28, calculateIpv4StartNode img 28 m⟩
  else if m.recordSize = some 32 then
    .ok ⟨img, m, 32, calculateIpv4StartNode img 32 m⟩
  else .error "Unsupported record size"

/-- `bitAt`: bit `idx` of the address bytes, MSB-first per byte. -/
def bitAt (bytes : List Nat) (idx : Nat) : Nat :=
  ((bytes.getD (idx >>> 3) 0) >>> (7 ^^^ (idx &&& 7))) &&& 1

/-- The walk loop of `MMDBWalker.walk`, counting down the remaining bits:
`walkAux … n depth node` is the loop entered with `bitLength - depth = n`. -/
def walkAux (img : Image) (rs : Nat) (nc nbs : Option Int) (ip : List Nat) :
    Nat → Nat → Int → Int × Nat
  | 0, depth, node => (node, depth)
  | n + 1, depth, node =>
    if jsLtO node nc then
      let bit := bitAt ip depth
      let offset := nbs.map (fun b => node * b)
      walkAux img rs nc nbs ip n (depth + 1)
        (if bit ≠ 0 then readNodeRight img rs offset
         else readNodeLeft img rs offset)
    else (node, depth)

/-- `MMDBWalker.walk`. -/
def walk (w : Walker) (ip : List Nat) : Option Int × Nat :=
  let bitLength := ip.length * 8
  let start : Int := if ip.length = 4 then w.ipv4Start else 0
  let r := walkAux w.data w.recordSize w.meta.nodeCount w.meta.nodeByteSize
    ip bitLength 0 start
  if jsGtO r.1 w.meta.nodeCount then (some r.1, r.2) else (none, r.2)

/-- `MMDBWalker.isDataPointer`. -/
def isDataPointer (record : Int) (nodeCount : Option Int) : Bool :=
  jsGtO record nodeCount

/-! ### Parser facade (`MMDBParser`) -/

/-- The LRU cache: a JS `Map` is iteration-ordered by insertion, so the
entry list is kept least-recently-used first. -/
structure LRU where
  entries : List (JStr × JSV)
  maxSize : Int
  deriving Repr

/-- `Map.get`. -/
def lruLookup (es : List (JStr × JSV)) (k : JStr) : Option JSV :=
  match es.find? (fun e => decide (e.1 = k)) with
  | some e => some e.2
  | none => none

/-- `LRUCache.get`: a found entry is deleted and re-inserted at the
most-recently-used end. -/
def lruGet (c : LRU) (k : JStr) : Option JSV × LRU :=
  match lruLookup c.entries k with
  | none => (none, c)
  | some v =>
    (some v,
      ⟨(c.entries.filter (fun e => decide (e.1 ≠ k))) ++ [(k, v)], c.maxSize⟩)

/-- `LRUCache.set`: replace an existing key (moving it last), otherwise
evict the least-recently-used entry when full, then append. -/
def lruSet (c : LRU) (k : JStr) (v : JSV) : LRU :=
  if (lruLookup c.entries k).isSome then
    ⟨(c.entries.filter (fun e => decide (e.1 ≠ k))) ++ [(k, v)], c.maxSize⟩
  else if c.maxSize ≤ (c.entries.length : Int) then
    ⟨c.entries.drop 1 ++ [(k, v)], c.maxSize⟩
  else ⟨c.entries ++ [(k, v)], c.maxSize⟩

/-- Constructor options (`MMDBOptions`): `none` = property absent. -/
structure POptions where
  cacheSize : Option Int := none
  enableCache : Option Bool := none

/-- Constructed decoder: the image and the fixed base offset used for
pointer resolution. -/
structure Decoder where
  data : Image
  baseOffset : Int
  deriving Repr

/-- `MMDBParser` instance state. -/
structure ParserState where
  data : Image
  metadata : Option MMDBMetadata
  walker : Option Walker
  decoder : Option Decoder
  cache : Option LRU
  optCacheSize : Int
  optEnableCache : Bool

/-- `new MMDBParser(options)`: defaults `cacheSize: 1000`,
`enableCache: true` merged under the caller's options; the cache exists
iff `enableCache && cacheSize && cacheSize > 0`. -/
def mkParser (opts : POptions) : ParserState :=
  let cacheSize := opts.cacheSize.getD 1000
  let enableCache := opts.enableCache.getD true
  { data := []
    metadata := none
    walker := none
    decoder := none
    cache :=
      if enableCache ∧ 0 < cacheSize then some ⟨[], cacheSize⟩ else none
    optCacheSize := cacheSize
    optEnableCache := enableCache }

/-- `MMDBParser.load`.  Assignments happen in source order, so a failure
part-way leaves the earlier assignments in place: `data` is always
replaced, `metadata` keeps the freshly parsed value even when validation
or walker construction then fails. -/
def load (fuel : Nat) (s : ParserState) (bytes : Image) :
    Option (Except String Unit × ParserState) :=
  let s1 := { s with data := bytes }
  match parseMeta fuel bytes with
  | none => none
  | some (.error e) => some (.error e, s1)
  | some (.ok m) =>
    let s2 := { s1 with metadata := some m }
    if ¬ validate m then some (.error "Invalid MMDB metadata", s2)
    else
      -- dataSectionOffset = searchTreeSize + DATA_SECTION_SEPARATOR_SIZE;
      -- validation just guaranteed searchTreeSize is a number, so the
      -- NaN default below is unreachable
      let dso := m.searchTreeSize.getD 0 + 16
      match createWalker bytes m with
      | .error e => some (.error e, s2)
      | .ok w =>
        some (.ok (), { s2 with walker := some w, decoder := some ⟨bytes, dso⟩ })

/-- `MMDBParser.isValid` (`this.data`, a `Uint8Array`, is always truthy). -/
def isValid (s : ParserState) : Bool :=
  s.metadata.isSome && s.walker.isSome && s.decoder.isSome

/-- `MMDBParser.getMetadata`. -/
def getMetadata (s : ParserState) : Option MMDBMetadata :=
  s.metadata

/-- The `:full` cache-key suffix of `getWithPrefixLength`. -/
def colonFull : JStr := asciiKey ":full"

/-- The cache-miss body of `getWithPrefixLength` (everything inside its
`try`; a thrown decode error is caught and degrades to `(null, 0)`).
`ipToBytesF` is the external `ipdo` collaborator folding `isValidIP` and
the `try { ipToBytes } catch { null }` into one `Option`-valued function. -/
def lookupMiss (ipToBytesF : JStr → Option (List Nat)) (fuel : Nat)
    (s : ParserState) (ip : JStr) : Option ((JSV × Nat) × ParserState) :=
  match ipToBytesF ip with
  | none => some ((.nullv, 0), s)
  | some ipBytes =>
    match s.walker, s.metadata, s.decoder with
    | some w, some m, some dec =>
      let r := walk w ipBytes
      let prefixLength := r.2
      -- `!record || !isDataPointer(record, nodeCount)`: a null record and
      -- a zero record are both falsy
      match r.1 with
      | none => some ((.nullv, prefixLength), s)
      | some rv =>
        if rv = 0 ∨ ¬ jsGtO rv m.nodeCount then
          some ((.nullv, prefixLength), s)
        else
          let dataOffset : Option Int :=
            match m.nodeCount, m.searchTreeSize with
            | some nc, some sts => some (rv - nc + sts)
            | _, _ => none
          -- a NaN data offset (unreachable after a successful load) makes
          -- every read undefined and the decoder throws "Unknown type"
          match
            (match dataOffset with
             | some o => decodeFastF dec.data dec.baseOffset fuel o
             | none => some (.error "Unknown type")) with
          | none => none
          | some (.error _) => some ((.nullv, 0), s)
          | some (.ok c) =>
            let dataV := c.value
            let s2 :=
              if jsTruthy dataV then
                match s.cache with
                | some cch =>
                  { s with cache := some (lruSet cch (ip ++ colonFull) dataV) }
                | none => s
              else s
            some ((dataV, prefixLength), s2)
    | _, _, _ => some ((.nullv, 0), s)

/-- `MMDBParser.getWithPrefixLength`.  Result data `JSV.nullv` is the JS
`null` of the source's `{ data: null, prefixLength }`. -/
def getWithPrefixLength (ipToBytesF : JStr → Option (List Nat)) (fuel : Nat)
    (s : ParserState) (ip : JStr) : Option ((JSV × Nat) × ParserState) :=
  if ¬ isValid s then some ((.nullv, 0), s)
  else
    match s.cache with
    | some c =>
      -- cache.get moves a found entry to most-recently-used even when the
      -- truthiness test then fails (stored values are always truthy)
      let r := lruGet c (ip ++ colonFull)
      let s1 := { s with cache := some r.2 }
      match r.1 with
      | some v =>
        if jsTruthy v then some ((v, 0), s1) else lookupMiss ipToBytesF fuel s1 ip
      | none => lookupMiss ipToBytesF fuel s1 ip
    | none => lookupMiss ipToBytesF fuel s ip

/-- `MMDBParser.get`. -/
def get (ipToBytesF : JStr → Option (List Nat)) (fuel : Nat)
    (s : ParserState) (ip : JStr) : Option (JSV × ParserState) :=
  (getWithPrefixLength ipToBytesF fuel s ip).map (fun r => (r.1.1, r.2))

def namesKey : JStr := asciiKey "names"
def nameKey : JStr := asciiKey "name"
def enKey : JStr := asciiKey "en"

/-- `names[language] || names.en || Object.values(names)[0]`. -/
def chooseName (names : JSV) (language : JStr) : JSV :=
  let c1 := propGetD names language
  if jsTruthy c1 then c1
  else
    let c2 := propGetD names enKey
    if jsTruthy c2 then c2 else (jsValues names).headD .undefv

/-- `null` or `undefined` (member access on these throws). -/
def jsNullish : JSV → Bool
  | .nullv => true
  | .undefv => true
  | _ => false

/-- The `for … of Object.entries(data)` loop of `extractLanguageData`,
with the result object accumulated so far.  Reading `names[language]`
throws a `TypeError` when the `names` property holds `null` or
`undefined`. -/
def extractGo (language : JStr) :
    List (JStr × JSV) → List (JStr × JSV) → Except String JSV
  | [], acc => .ok (.obj acc)
  | (k, v) :: rest, acc =>
    if jsTruthy v ∧ typeofObject v ∧ hasProp v namesKey then
      let names := propGetD v namesKey
      if jsNullish names then .error "TypeError"
      else
        -- `{...value, name: …}`: `value` is an object here (it has an own
        -- `names` property)
        let fields := match v with | .obj f => f | _ => []
        extractGo language rest
          (objSet acc k (.obj (objSet fields nameKey (chooseName names language))))
    else extractGo language rest (objSet acc k v)

/-- `Object.entries(v)`. -/
def entriesOf : JSV → List (JStr × JSV)
  | .obj fields => fields
  | .arr xs => xs.enum.map (fun e => (natDigits e.1, e.2))
  | .bytesv bs => bs.enum.map (fun e => (natDigits e.1, .num e.2.val))
  | _ => []

/-- `MMDBParser.extractLanguageData`. -/
def extractLanguageData (data : JSV) (language : JStr) : Except String JSV :=
  if ¬ (jsTruthy data ∧ typeofObject data) then .ok data
  else extractGo language (entriesOf data) []

/-- `MMDBParser.getWithLanguage`. -/
def getWithLanguage (ipToBytesF : JStr → Option (List Nat)) (fuel : Nat)
    (s : ParserState) (ip language : JStr) :
    Option (Except String JSV × ParserState) :=
  match get ipToBytesF fuel s ip with
  | none => none
  | some (dataV, s1) =>
    if ¬ jsTruthy dataV then some (.ok .nullv, s1)
    else some (extractLanguageData dataV language, s1)

/-! ### Specification-side definitions -/

/-- Big-endian value of a byte list (specification-side). -/
def beValue (bs : List (Fin 256)) : Nat :=
  bs.foldl (fun acc b => acc * 256 + b.val) 0

/-- Two's-complement (signed) interpretation of a big-endian byte list
(specification-side: what the spec means by "sign-extended"). -/
def int2c (bs : List (Fin 256)) : Int :=
  let u := beValue bs
  if u < 2 ^ (8 * bs.length - 1) then (u : Int) else (u : Int) - 2 ^ (8 * bs.length)

/-- The `k` bytes of the image starting at `off`, as the decoder reads
them (out-of-bounds positions read as 0). -/
def window (img : Image) (off : Int) (k : Nat) : List (Fin 256) :=
  (List.range k).map (fun i => Fin.ofNat (jsByte img (off + i)))

/-- Termination of the source's `decode` at an offset: some recursion
budget suffices. -/
def DecodeTerminates (img : Image) (base off : Int) : Prop :=
  ∃ fuel r, decodeF img base fuel off = some r

/-! ### Helper lemmas -/

theorem jsByte_lt (img : Image) (o : Int) : jsByte img o < 256 := by
  unfold jsByte
  split
  · exact (img.getD _ 0).isLt
  · exact Nat.zero_lt_succ _

theorem shl_or_eq (a b : Nat) (k : Nat) (h : b < 2 ^ k) :
    a <<< k ||| b = a * 2 ^ k + b := by
  rw [Nat.shiftLeft_eq, Nat.mul_comm a, ← Nat.mul_add_lt_is_or h, Nat.mul_comm]

theorem shl8_or (a b : Nat) (h : b < 256) : a <<< 8 ||| b = a * 256 + b := by
  have := shl_or_eq a b 8 (by omega)
  norm_num at this
  exact this

theorem shl16_or (a b : Nat) (h : b < 65536) :
    a <<< 16 ||| b = a * 65536 + b := by
  have := shl_or_eq a b 16 (by omega)
  norm_num at this
  exact this

theorem shl24_or (a b : Nat) (h : b < 16777216) :
    a <<< 24 ||| b = a * 16777216 + b := by
  have := shl_or_eq a b 24 (by omega)
  norm_num at this
  exact this

theorem be2_eq (b0 b1 : Nat) (h1 : b1 < 256) :
    b0 <<< 8 ||| b1 = b0 * 256 + b1 :=
  shl8_or b0 b1 h1

theorem be3_eq (b0 b1 b2 : Nat) (h1 : b1 < 256) (h2 : b2 < 256) :
    b0 <<< 16 ||| b1 <<< 8 ||| b2 = b0 * 65536 + b1 * 256 + b2 := by
  rw [Nat.lor_assoc, be2_eq b1 b2 h2, shl16_or b0 (b1 * 256 + b2) (by omega)]
  ring

theorem be4_eq (b0 b1 b2 b3 : Nat) (h1 : b1 < 256) (h2 : b2 < 256)
    (h3 : b3 < 256) :
    b0 <<< 24 ||| b1 <<< 16 ||| b2 <<< 8 ||| b3 =
      b0 * 16777216 + b1 * 65536 + b2 * 256 + b3 := by
  rw [Nat.lor_assoc, Nat.lor_assoc, be2_eq b2 b3 h3,
    shl16_or b1 (b2 * 256 + b3) (by omega),
    shl24_or b0 (b1 * 65536 + (b2 * 256 + b3)) (by omega)]
  ring

theorem readUint16BE_eq (img : Image) (o : Int) :
    readUint16BE img o = jsByte img o * 256 + jsByte img (o + 1) :=
  be2_eq _ _ (jsByte_lt img (o + 1))

theorem readUintBE1_eq (img : Image) (o : Int) :
    readUintBE img o 1 = jsByte img o := by
  simp only [readUintBE, readUintBEAux]
  simp

theorem readUintBE2_eq (img : Image) (o : Int) :
    readUintBE img o 2 = jsByte img o * 256 + jsByte img (o + 1) := by
  simp only [readUintBE, readUintBEAux]
  simp only [Nat.zero_shiftLeft, Nat.zero_or]
  rw [shl8_or _ _ (jsByte_lt img (o + 1))]

theorem readUintBE3_eq (img : Image) (o : Int) :
    readUintBE img o 3 =
      jsByte img o * 65536 + jsByte img (o + 1) * 256 + jsByte img (o + 2) := by
  simp only [readUintBE, readUintBEAux]
  simp only [Nat.zero_shiftLeft, Nat.zero_or]
  rw [shl8_or _ _ (jsByte_lt img (o + 1)), shl8_or _ _ (jsByte_lt img (o + 1 + 1)),
    show o + 1 + 1 = o + 2 by ring]
  ring

/-! ### C3: size extension scheme of the control byte -/

/-- C3: the size decoded from the control byte's low 5 bits follows the
variable-length extension scheme exactly: 0–28 literal, 29 ⇒ 29 + next
byte, 30 ⇒ 285 + next two big-endian bytes, 31 ⇒ 65821 + next three
big-endian bytes (exact Nat arithmetic — no overflow). -/
theorem C3_size_extension (img : Image) (ctrl : Nat) (off : Int) :
    (ctrl &&& 0x1f < 29 → sizeFromCtrlByte img ctrl off = (off, ctrl &&& 0x1f)) ∧
    (ctrl &&& 0x1f = 29 →
      sizeFromCtrlByte img ctrl off = (off + 1, 29 + jsByte img off)) ∧
    (ctrl &&& 0x1f = 30 →
      sizeFromCtrlByte img ctrl off =
        (off + 2, 285 + (jsByte img off * 256 + jsByte img (off + 1)))) ∧
    (ctrl &&& 0x1f = 31 →
      sizeFromCtrlByte img ctrl off =
        (off + 3, 65821 + (jsByte img off * 65536 + jsByte img (off + 1) * 256 +
          jsByte img (off + 2)))) := by
  refine ⟨fun h => ?_, fun h => ?_, fun h => ?_, fun h => ?_⟩
  · simp [sizeFromCtrlByte, h]
  · simp [sizeFromCtrlByte, h]
  · simp [sizeFromCtrlByte, h, readUint16BE_eq]
  · simp [sizeFromCtrlByte, h, readUintBE3_eq]

/-- C3 witness: each branch of the theorem instantiated at a concrete
control byte and image, hitting the claim's boundary sizes 0, 28, 29, 284,
285, 65820, 65821 and 65821 + 2²⁴ − 1. -/
theorem C3_size_extension_witness :
    sizeFromCtrlByte ([] : Image) 0 0 = (0, 0) ∧
    sizeFromCtrlByte ([] : Image) 28 0 = (0, 28) ∧
    sizeFromCtrlByte ([0x00] : Image) 29 0 = (1, 29) ∧
    sizeFromCtrlByte ([0xff] : Image) 29 0 = (1, 284) ∧
    sizeFromCtrlByte ([0x00, 0x00] : Image) 30 0 = (2, 285) ∧
    sizeFromCtrlByte ([0xff, 0xff] : Image) 30 0 = (2, 65820) ∧
    sizeFromCtrlByte ([0x00, 0x00, 0x00] : Image) 31 0 = (3, 65821) ∧
    sizeFromCtrlByte ([0xff, 0xff, 0xff] : Image) 31 0 = (3, 65821 + 2 ^ 24 - 1) := by
  refine ⟨?_, ?_, ?_, ?_, ?_, ?_, ?_, ?_⟩
  · have h := (C3_size_extension ([] : Image) 0 0).1 (by decide)
    simpa using h
  · have h := (C3_size_extension ([] : Image) 28 0).1 (by decide)
    simpa using h
  · have h := (C3_size_extension ([0x00] : Image) 29 0).2.1 (by decide)
    simpa using h
  · have h := (C3_size_extension ([0xff] : Image) 29 0).2.1 (by decide)
    simpa using h
  · have h := (C3_size_extension ([0x00, 0x00] : Image) 30 0).2.2.1 (by decide)
    simpa using h
  · have h := (C3_size_extension ([0xff, 0xff] : Image) 30 0).2.2.1 (by decide)
    simpa using h
  · have h := (C3_size_extension ([0x00, 0x00, 0x00] : Image) 31 0).2.2.2 (by decide)
    simpa using h
  · have h := (C3_size_extension ([0xff, 0xff, 0xff] : Image) 31 0).2.2.2 (by decide)
    simpa using h

/-! ### C4: the decoder does not bound its reads by the image length -/

/-- C4 (code bug evidence): on the truncated 1-byte image `[0xA2]` (a
Uint16 control byte announcing a 2-byte payload) the decoder reads offsets
1 and 2 — both past the end of the image — and succeeds with the
fabricated value 0 and cursor 3, instead of failing. -/
theorem C4_oob_read_evidence :
    decodeF [0xA2] 0 5 0 = some (.ok ⟨.num 0, 3⟩) ∧
    ([0xA2] : Image).length = 1 :=
  ⟨rfl, rfl⟩

/-! ### C6: Int32 decoding -/

/-- C6 counterexample: decoding an Int32 of size 1 with payload `0xFF`
(image `[0x01, 0x01, 0xFF]`: extended control byte, type byte 1 = Int32,
size 1) yields the unsigned value 255, not the two's-complement value −1
the claim requires. -/
theorem C6_counterexample :
    decodeF [0x01, 0x01, 0xFF] 0 9 0 = some (.ok ⟨.num 255, 3⟩) ∧
    int2c [(0xFF : Fin 256)] = -1 ∧
    JSV.num 255 ≠ JSV.num (int2c [(0xFF : Fin 256)]) := by
  have h2c : int2c [(0xFF : Fin 256)] = -1 := by decide
  refine ⟨rfl, h2c, ?_⟩
  rw [h2c]
  simp

theorem window4_eq (img : Image) (off : Int) :
    window img off 4 =
      [Fin.ofNat (jsByte img off), Fin.ofNat (jsByte img (off + 1)),
       Fin.ofNat (jsByte img (off + 2)), Fin.ofNat (jsByte img (off + 3))] := by
  simp only [window, show List.range 4 = [0, 1, 2, 3] by decide, List.map]
  push_cast
  norm_num

theorem int32OfBytes_eq_int2c (b0 b1 b2 b3 : Nat) (h0 : b0 < 256)
    (h1 : b1 < 256) (h2 : b2 < 256) (h3 : b3 < 256) :
    int32OfBytes b0 b1 b2 b3 =
      int2c [Fin.ofNat b0, Fin.ofNat b1, Fin.ofNat b2, Fin.ofNat b3] := by
  have e0 : (Fin.ofNat b0 : Fin 256).val = b0 := Nat.mod_eq_of_lt h0
  have e1 : (Fin.ofNat b1 : Fin 256).val = b1 := Nat.mod_eq_of_lt h1
  have e2 : (Fin.ofNat b2 : Fin 256).val = b2 := Nat.mod_eq_of_lt h2
  have e3 : (Fin.ofNat b3 : Fin 256).val = b3 := Nat.mod_eq_of_lt h3
  have hm : (b0 * 16777216 + b1 * 65536 + b2 * 256 + b3) % 4294967296 =
      b0 * 16777216 + b1 * 65536 + b2 * 256 + b3 :=
    Nat.mod_eq_of_lt (by omega)
  simp only [int32OfBytes, toInt32, int2c, beValue, List.foldl, List.length,
    e0, e1, e2, e3, hm]
  norm_num
  omega

/-- C6 amended: for the Int32 tag, size 0 decodes to 0, sizes 1–3 decode
the bytes as an **unsigned** big-endian integer (the source comment says
"treat as unsigned"), and only size ≥ 4 reads four bytes as the signed
two's-complement value (via a bounds-checked `DataView`). -/
theorem C6_int32_sizes (img : Image) (base : Int) (fuel : Nat) (off : Int)
    (s : Nat) :
    (s = 0 → decodeByTypeF img base (fuel + 1) 8 off s =
      some (.ok ⟨.num 0, off⟩)) ∧
    (s = 1 → decodeByTypeF img base (fuel + 1) 8 off s =
      some (.ok ⟨.num (jsByte img off), off + 1⟩)) ∧
    (s = 2 → decodeByTypeF img base (fuel + 1) 8 off s =
      some (.ok ⟨.num (jsByte img off * 256 + jsByte img (off + 1)), off + 2⟩)) ∧
    (s = 3 → decodeByTypeF img base (fuel + 1) 8 off s =
      some (.ok ⟨.num (jsByte img off * 65536 + jsByte img (off + 1) * 256 +
        jsByte img (off + 2)), off + 3⟩)) ∧
    (4 ≤ s → 0 ≤ off → off + 4 ≤ (img.length : Int) →
      decodeByTypeF img base (fuel + 1) 8 off s =
        some (.ok ⟨.num (int2c (window img off 4)), off + 4⟩)) := by
  refine ⟨fun h => ?_, fun h => ?_, fun h => ?_, fun h => ?_,
    fun h hl hr => ?_⟩
  · subst h; simp [decodeByTypeF, decodeRun, byTypeCore]
  · subst h; simp [decodeByTypeF, decodeRun, byTypeCore, readUintBE1_eq]
  · subst h; simp [decodeByTypeF, decodeRun, byTypeCore, readUintBE2_eq]
  · subst h; simp [decodeByTypeF, decodeRun, byTypeCore, readUintBE3_eq]
  · have h0 : ¬ s = 0 := by omega
    have h4 : ¬ s < 4 := by omega
    rw [window4_eq, ← int32OfBytes_eq_int2c _ _ _ _ (jsByte_lt img off)
      (jsByte_lt img (off + 1)) (jsByte_lt img (off + 2))
      (jsByte_lt img (off + 3))]
    simp [decodeByTypeF, decodeRun, byTypeCore, h0, h4, hl, hr]

/-- C6 witness for the amended theorem: a concrete Int32 record of size 4
with a negative payload decodes through the signed path. -/
theorem C6_int32_sizes_witness :
    decodeByTypeF [0xFF, 0xFF, 0xFF, 0xFE] 0 4 8 0 4 =
      some (.ok ⟨.num (int2c (window [0xFF, 0xFF, 0xFF, 0xFE] 0 4)), 4⟩) ∧
    int2c (window [0xFF, 0xFF, 0xFF, 0xFE] 0 4) = -2 := by
  constructor
  · exact (C6_int32_sizes [0xFF, 0xFF, 0xFF, 0xFE] 0 3 0 4).2.2.2.2
      (by decide) (by decide) (by decide)
  · decide

/-! ### C2: pointer decoding -/

/-- Packed pointer value (specification-side rendering of the claim): for
size classes 0–2 the three low control-byte bits prepended to `c+1`
big-endian bytes; for class 3 the full 32-bit value of the next four bytes
(as the JS `|` chain computes it, i.e. Int32-coerced). -/
def packedValue (img : Image) (off : Int) : Int :=
  let ctrl := jsByte img off
  let c := (ctrl >>> 3) &&& 3
  if c = 0 then ((ctrl &&& 7) * 256 + jsByte img (off + 1) : Nat)
  else if c = 1 then
    ((ctrl &&& 7) * 65536 + jsByte img (off + 1) * 256 + jsByte img (off + 2) : Nat)
  else if c = 2 then
    ((ctrl &&& 7) * 16777216 + jsByte img (off + 1) * 65536 +
      jsByte img (off + 2) * 256 + jsByte img (off + 3) : Nat)
  else
    toInt32 (jsByte img (off + 1) * 16777216 + jsByte img (off + 2) * 65536 +
      jsByte img (off + 3) * 256 + jsByte img (off + 4))

theorem decodePointer_snd (img : Image) (base : Int) (ctrl : Nat) (off : Int) :
    (decodePointer img base ctrl (off + 1)).2 =
      off + ((ctrl >>> 3) &&& 3 : Nat) + 2 := by
  simp only [decodePointer]
  ring

theorem decodePointer_fst (img : Image) (base : Int) (off : Int) :
    (decodePointer img base (jsByte img off) (off + 1)).1 =
      base + pointerValueOffset ((jsByte img off >>> 3) &&& 3) +
        packedValue img off := by
  have hc : (jsByte img off >>> 3) &&& 3 ≤ 3 := Nat.and_le_right
  have hcases : (jsByte img off >>> 3) &&& 3 = 0 ∨
      (jsByte img off >>> 3) &&& 3 = 1 ∨ (jsByte img off >>> 3) &&& 3 = 2 ∨
      (jsByte img off >>> 3) &&& 3 = 3 := by omega
  rcases hcases with h | h | h | h
  · simp only [decodePointer, packedValue, h]
    norm_num
    rw [shl8_or _ _ (jsByte_lt img (off + 1))]
    push_cast
    ring
  · simp only [decodePointer, packedValue, h]
    norm_num
    rw [readUint16BE_eq,
      shl16_or _ _ (by have := jsByte_lt img (off + 1)
                       have := jsByte_lt img (off + 1 + 1); omega)]
    push_cast
    rw [show off + 1 + 1 = off + 2 by ring]
    ring
  · simp only [decodePointer, packedValue, h]
    norm_num
    rw [readUintBE3_eq,
      shl24_or _ _ (by have := jsByte_lt img (off + 1)
                       have := jsByte_lt img (off + 1 + 1)
                       have := jsByte_lt img (off + 1 + 2); omega)]
    push_cast
    rw [show off + 1 + 1 = off + 2 by ring, show off + 1 + 2 = off + 3 by ring]
    ring
  · simp only [decodePointer, packedValue, h]
    norm_num
    simp only [readUint32BE]
    rw [be4_eq _ _ _ _ (jsByte_lt img (off + 1 + 1)) (jsByte_lt img (off + 1 + 2))
      (jsByte_lt img (off + 1 + 3)),
      show off + 1 + 1 = off + 2 by ring, show off + 1 + 2 = off + 3 by ring,
      show off + 1 + 3 = off + 4 by ring]

/-- C2: for a control byte with type tag 1 (Pointer) and size class `c`,
`decode` returns the value obtained by decoding directly at the absolute
offset `baseOffset + classBase + packedValue` (classBase per
`pointerValueOffset`), while the returned cursor advances only past the
pointer encoding itself: the control byte plus `c+1` trailing bytes. -/
theorem C2_pointer_roundtrip (img : Image) (base : Int) (fuel : Nat)
    (off : Int) (h : jsByte img off >>> 5 = 1) :
    decodeF img base (fuel + 1) off =
      (decodeF img base fuel
          (base + pointerValueOffset ((jsByte img off >>> 3) &&& 3) +
            packedValue img off)).map
        (fun r => r.map
          (fun c => ⟨c.value, off + ((jsByte img off >>> 3) &&& 3 : Nat) + 2⟩)) := by
  have step : decodeF img base (fuel + 1) off =
      (match decodeF img base fuel
          ((decodePointer img base (jsByte img off) (off + 1)).1) with
       | none => none
       | some (.error e) => some (.error e)
       | some (.ok c) =>
         some (.ok ⟨c.value,
           (decodePointer img base (jsByte img off) (off + 1)).2⟩)) := by
    simp only [decodeF, decodeRun, h]
    rfl
  rw [step, decodePointer_fst, decodePointer_snd]
  cases hres : decodeF img base fuel
      (base + pointerValueOffset ((jsByte img off >>> 3) &&& 3) +
        packedValue img off) with
  | none => simp
  | some r => cases r with
    | error e => simp [Except.map]
    | ok c => simp [Except.map]

/-- C2 witness: the pointer record `[0x20, 0x02]` (class 0, packed value
2) in a 3-byte image resolves to the empty map encoded at offset 2,
returning its value with the cursor at 2. -/
theorem C2_pointer_roundtrip_witness :
    decodeF [0x20, 0x02, 0xE0] 0 4 0 =
      (decodeF [0x20, 0x02, 0xE0] 0 3
          (0 + pointerValueOffset ((jsByte [0x20, 0x02, 0xE0] 0 >>> 3) &&& 3) +
            packedValue [0x20, 0x02, 0xE0] 0)).map
        (fun r => r.map
          (fun c => ⟨c.value,
            0 + ((jsByte [0x20, 0x02, 0xE0] 0 >>> 3) &&& 3 : Nat) + 2⟩)) :=
  C2_pointer_roundtrip [0x20, 0x02, 0xE0] 0 3 0 (by decide)

/-! ### C5: termination of `decode` -/

theorem selfPointer_no_fuel :
    ∀ fuel, decodeF [0x20, 0x00] 0 fuel 0 = none := by
  intro fuel
  induction fuel with
  | zero => rfl
  | succ n ih =>
    have step : decodeF [0x20, 0x00] 0 (n + 1) 0 =
        (match decodeF [0x20, 0x00] 0 n 0 with
         | none => none
         | some (.error e) => some (.error e)
         | some (.ok c) => some (.ok ⟨c.value, 2⟩)) := rfl
    rw [step, ih]

/-- C5 counterexample: on the malformed 2-byte image `[0x20, 0x00]` with
base offset 0 the pointer at offset 0 resolves to offset 0 itself, and
`decode(0)` recurses into itself forever — no recursion budget suffices. -/
theorem C5_counterexample : ¬ DecodeTerminates [0x20, 0x00] 0 0 := by
  rintro ⟨fuel, r, hr⟩
  rw [selfPointer_no_fuel fuel] at hr
  exact Option.noConfusion hr

/-! ### C1: walk classification -/

theorem walkAux_exhaust (img : Image) (rs : Nat) (nbs : Option Int)
    (ip : List Nat) (ncv : Int) (n : Nat) :
    ∀ depth node v d,
      walkAux img rs (some ncv) nbs ip n depth node = (v, d) → v < ncv →
        d = depth + n := by
  induction n with
  | zero =>
    intro depth node v d h hv
    simp only [walkAux, Prod.mk.injEq] at h
    omega
  | succ m ih =>
    intro depth node v d h hv
    by_cases hb : jsLtO node (some ncv) = true
    · rw [walkAux, if_pos hb] at h
      have := ih (depth + 1) _ v d h hv
      omega
    · rw [walkAux, if_neg hb] at h
      simp only [Prod.mk.injEq] at h
      simp only [jsLtO, decide_eq_true_eq] at hb
      omega

/-- C1: the tree walk classifies its final record value by strict
comparison with `nodeCount`: a final value strictly above `nodeCount` is
returned as a data pointer with the number of bits walked; a final value
equal to `nodeCount` — and any value below it, reached only at address
exhaustion — yields `(null, bits walked)`; in particular a record equal to
`nodeCount` is never treated as a pointer, and a final value below
`nodeCount` implies all address bits were consumed. -/
theorem C1_walk_classification (w : Walker) (ip : List Nat) (nc : Int)
    (_hlen : ip.length = 4 ∨ ip.length = 16)
    (hnc : w.meta.nodeCount = some nc) :
    ∀ v d, walkAux w.data w.recordSize w.meta.nodeCount w.meta.nodeByteSize ip
        (ip.length * 8) 0 (if ip.length = 4 then w.ipv4Start else 0) = (v, d) →
      (nc < v → walk w ip = (some v, d)) ∧
      (v ≤ nc → walk w ip = (none, d)) ∧
      (v < nc → d = ip.length * 8) := by
  intro v d hvd
  rw [hnc] at hvd
  refine ⟨fun hgt => ?_, fun hle => ?_, fun hlt => ?_⟩
  · simp only [walk, hnc, jsGtO]
    rw [hvd]
    simp [hgt]
  · simp only [walk, hnc, jsGtO]
    rw [hvd]
    simp [show ¬ nc < v by omega]
  · have := walkAux_exhaust w.data w.recordSize w.meta.nodeByteSize ip nc
      (ip.length * 8) 0 _ v d hvd hlt
    omega

/-- Metadata of the C1 witness database (record size 24, one node,
IPv4-addressed). -/
def mW : MMDBMetadata :=
  { binaryFormatMajorVersion := some 2
    binaryFormatMinorVersion := some 0
    buildEpoch := some 0
    databaseType := asciiKey "Test"
    languages := []
    description := .obj []
    ipVersion := some 4
    nodeCount := some 1
    recordSize := some 24
    nodeByteSize := some 6
    searchTreeSize := some 6
    treeDepth := some 0 }

/-- Walker of the C1 witness database: a single node whose left record is
the data value 2 (> nodeCount = 1). -/
def wW : Walker := ⟨[0, 0, 2, 0, 0, 0], mW, 24, 0⟩

/-- C1 witness: walking `0.0.0.0` hits the left record 2 > nodeCount = 1
after one bit and returns it as a data pointer with prefix length 1. -/
theorem C1_walk_classification_witness : walk wW [0, 0, 0, 0] = (some 2, 1) := by
  have h := C1_walk_classification wW [0, 0, 0, 0] 1 (Or.inl rfl) rfl 2 1 (by decide)
  exact h.1 (by decide)

/-! ### C9: cache hits report prefix length 0 -/

/-- C9: whenever `getWithPrefixLength` finds a (truthy, as every stored
value is) cached entry for the queried ip, it returns the previously
decoded value with `prefixLength = 0`, regardless of the true matched
prefix length; the entry moves to most-recently-used. -/
theorem C9_cache_hit_prefix_zero (ipToBytesF : JStr → Option (List Nat))
    (fuel : Nat) (s : ParserState) (ip : JStr) (c : LRU) (v : JSV)
    (hvalid : isValid s = true) (hc : s.cache = some c)
    (hhit : lruLookup c.entries (ip ++ colonFull) = some v)
    (htruthy : jsTruthy v = true) :
    getWithPrefixLength ipToBytesF fuel s ip =
      some ((v, 0), { s with cache := some (LRU.mk
        ((c.entries.filter (fun e => decide (e.1 ≠ ip ++ colonFull))) ++
          [(ip ++ colonFull, v)]) c.maxSize) }) := by
  simp only [getWithPrefixLength, hvalid, hc, lruGet, hhit]
  simp [htruthy]

/-- State for the C9 witness: a loaded-looking parser whose cache holds a
previously decoded value for `1.2.3.4`. -/
def sW9 : ParserState :=
  { data := []
    metadata := some mW
    walker := some wW
    decoder := some ⟨[], 22⟩
    cache := some ⟨[(asciiKey "1.2.3.4" ++ colonFull, .num 7)], 1000⟩
    optCacheSize := 1000
    optEnableCache := true }

/-- C9 witness: the cached lookup returns the stored value with prefix
length 0. -/
theorem C9_cache_hit_prefix_zero_witness :
    getWithPrefixLength (fun _ => none) 5 sW9 (asciiKey "1.2.3.4") =
      some ((.num 7, 0), sW9) := by
  have h := C9_cache_hit_prefix_zero (fun _ => none) 5 sW9 (asciiKey "1.2.3.4")
    ⟨[(asciiKey "1.2.3.4" ++ colonFull, .num 7)], 1000⟩ (.num 7) rfl rfl rfl rfl
  exact h

/-! ### C10: lookups on a never-successfully-loaded parser -/

/-- A parser on which `load` has never completed successfully: freshly
constructed, or every `load` call raised an error. -/
inductive NeverLoaded : ParserState → Prop where
  | init (opts : POptions) : NeverLoaded (mkParser opts)
  | step (s : ParserState) (bytes : Image) (fuel : Nat) (e : String)
      (s' : ParserState) : NeverLoaded s →
      load fuel s bytes = some (.error e, s') → NeverLoaded s'

theorem load_fail_preserves (fuel : Nat) (s : ParserState) (bytes : Image)
    (e : String) (s' : ParserState)
    (h : load fuel s bytes = some (.error e, s')) :
    s'.walker = s.walker ∧ s'.decoder = s.decoder := by
  unfold load at h
  cases hp : parseMeta fuel bytes with
  | none => rw [hp] at h; exact Option.noConfusion h
  | some r =>
    rw [hp] at h
    cases r with
    | error e2 =>
      simp only [Option.some.injEq, Prod.mk.injEq] at h
      rw [← h.2]
      exact ⟨rfl, rfl⟩
    | ok m =>
      dsimp only at h
      by_cases hv : validate m
      · rw [if_neg (by simp [hv])] at h
        cases hw : createWalker bytes m with
        | error e3 =>
          rw [hw] at h
          simp only [Option.some.injEq, Prod.mk.injEq] at h
          rw [← h.2]
          exact ⟨rfl, rfl⟩
        | ok w =>
          rw [hw] at h
          simp only [Option.some.injEq, Prod.mk.injEq] at h
          exact absurd h.1 (by simp)
      · rw [if_pos (by simp [hv])] at h
        simp only [Option.some.injEq, Prod.mk.injEq] at h
        rw [← h.2]
        exact ⟨rfl, rfl⟩

theorem neverLoaded_unloaded (s : ParserState) (h : NeverLoaded s) :
    s.walker = none ∧ s.decoder = none := by
  induction h with
  | init opts => exact ⟨rfl, rfl⟩
  | step s bytes fuel e s' hprev hload ih =>
    have hp := load_fail_preserves fuel s bytes e s' hload
    rw [hp.1, hp.2]
    exact ih

/-- C10: on a parser on which `load` never completed successfully (never
called, or every call failed), `getWithPrefixLength` returns
`{data: null, prefixLength: 0}` and `get` returns `null`, without
throwing (the model's results carry no error). -/
theorem C10_unloaded_lookups (ipToBytesF : JStr → Option (List Nat))
    (fuel : Nat) (s : ParserState) (ip : JStr) (h : NeverLoaded s) :
    getWithPrefixLength ipToBytesF fuel s ip = some ((.nullv, 0), s) ∧
    get ipToBytesF fuel s ip = some (.nullv, s) := by
  have hw := (neverLoaded_unloaded s h).1
  have hvalid : isValid s = false := by simp [isValid, hw]
  refine ⟨?_, ?_⟩ <;> simp [get, getWithPrefixLength, hvalid]

/-- C10 witness: after a failed load of an empty image on a fresh parser,
both lookups still return the not-found results. -/
theorem C10_unloaded_lookups_witness :
    getWithPrefixLength (fun _ => none) 3 (mkParser {}) (asciiKey "8.8.8.8") =
      some ((.nullv, 0), mkParser {}) ∧
    get (fun _ => none) 3 (mkParser {}) (asciiKey "8.8.8.8") =
      some (.nullv, mkParser {}) :=
  C10_unloaded_lookups (fun _ => none) 3 (mkParser {}) (asciiKey "8.8.8.8")
    (NeverLoaded.step (mkParser {}) [] 5
      "Could not find metadata start marker" (mkParser {})
      (NeverLoaded.init {}) rfl)

/-! ### C7: failed load -/

/-- C7 amended: a failed `load` from the Unloaded state raises the error
to the caller and leaves the facade unusable — `isValid` stays false and
both lookups still return the not-found results against the post-failure
state (`load` never assigns `walker`/`decoder` on any failure path).  The
original claim's `getMetadata()`-stays-null part is dropped: see the
counterexample. -/
theorem C7_failed_load_unusable (fuel : Nat) (s : ParserState)
    (bytes : Image) (e : String) (s' : ParserState)
    (hunl : s.walker = none) (hl : load fuel s bytes = some (.error e, s')) :
    isValid s' = false ∧
    (∀ ipToBytesF fuel2 ip,
      getWithPrefixLength ipToBytesF fuel2 s' ip = some ((.nullv, 0), s')) ∧
    (∀ ipToBytesF fuel2 ip, get ipToBytesF fuel2 s' ip = some (.nullv, s')) := by
  have hw : s'.walker = none := by
    rw [(load_fail_preserves fuel s bytes e s' hl).1, hunl]
  have hvalid : isValid s' = false := by simp [isValid, hw]
  exact ⟨hvalid,
    fun ipF f2 ip => by simp [getWithPrefixLength, hvalid],
    fun ipF f2 ip => by simp [get, getWithPrefixLength, hvalid]⟩

/-- The C7 counterexample image: the metadata marker followed by an empty
map (control byte `0xE0`), which parses to a metadata record failing
validation. -/
def bytes7 : Image := metadataMarker ++ [0xE0]

/-- The metadata record parsed from `bytes7`: every field defaulted. -/
def m7 : MMDBMetadata :=
  { binaryFormatMajorVersion := some 0
    binaryFormatMinorVersion := some 0
    buildEpoch := some 0
    databaseType := []
    languages := []
    description := .obj []
    ipVersion := some 0
    nodeCount := some 0
    recordSize := some 0
    nodeByteSize := some 0
    searchTreeSize := some 0
    treeDepth := some 0 }

/-- The parser state after the failed load of `bytes7` on a fresh parser:
the parsed-but-invalid metadata is retained. -/
def s7 : ParserState :=
  { mkParser {} with data := bytes7, metadata := some m7 }

theorem convertToMetadata_emptyObj : convertToMetadata (.obj []) = .ok m7 := by
  have hk : keyToString (.str []) = [] := by simp [keyToString]
  have h0 : convertToMetadata (.obj []) = .ok
      { binaryFormatMajorVersion := some 0
        binaryFormatMinorVersion := some 0
        buildEpoch := some 0
        databaseType := keyToString (.str [])
        languages := []
        description := .obj []
        ipVersion := some 0
        nodeCount := some 0
        recordSize := some 0
        nodeByteSize := some 0
        searchTreeSize := some 0
        treeDepth := some 0 } := rfl
  rw [h0, hk]
  rfl

/-- C7 counterexample: loading `bytes7` on a fresh parser fails with
"Invalid MMDB metadata" (validation failure after a successful parse), yet
afterwards `getMetadata()` returns the parsed metadata record — not
`null` as the claim requires. -/
theorem C7_counterexample :
    load 20 (mkParser {}) bytes7 = some (.error "Invalid MMDB metadata", s7) ∧
    getMetadata s7 = some m7 ∧ (getMetadata s7).isSome = true := by
  refine ⟨?_, rfl, rfl⟩
  have hp : parseMeta 20 bytes7 = some (.ok m7) := by
    have h1 : parseMeta 20 bytes7 = some (convertToMetadata (.obj [])) := rfl
    rw [h1, convertToMetadata_emptyObj]
  simp only [load, hp]
  rw [if_pos (by decide)]
  rfl

/-- C7 witness for the amended theorem, at the concrete failing load of
`bytes7`. -/
theorem C7_failed_load_unusable_witness :
    isValid s7 = false ∧
    getWithPrefixLength (fun _ => none) 3 s7 (asciiKey "8.8.8.8") =
      some ((.nullv, 0), s7) := by
  have hl : load 20 (mkParser {}) bytes7 =
      some (.error "Invalid MMDB metadata", s7) := by
    have hp : parseMeta 20 bytes7 = some (.ok m7) := by
      have h1 : parseMeta 20 bytes7 = some (convertToMetadata (.obj [])) := rfl
      rw [h1, convertToMetadata_emptyObj]
    simp only [load, hp]
    rw [if_pos (by decide)]
    rfl
  have h := C7_failed_load_unusable 20 (mkParser {}) bytes7
    "Invalid MMDB metadata" s7 rfl hl
  exact ⟨h.1, h.2.1 (fun _ => none) 3 (asciiKey "8.8.8.8")⟩

/-! ### C8: language extraction -/

/-- One-level child rewrite performed by `extractLanguageData`
(specification-side): a truthy object child with an own `names` property
gets a `name` field chosen by the `lang || en || first` chain; everything
else is copied unchanged. -/
def rewriteChild (language : JStr) (v : JSV) : JSV :=
  if jsTruthy v ∧ typeofObject v ∧ hasProp v namesKey then
    match v with
    | .obj f => .obj (objSet f nameKey (chooseName (propGetD v namesKey) language))
    | _ => v
  else v

theorem hasProp_obj (v : JSV) (k : JStr) (h : hasProp v k = true) :
    ∃ f, v = .obj f := by
  cases v <;> simp [hasProp] at h ⊢

theorem jsNullish_false (v : JSV) (h1 : v ≠ .nullv) (h2 : v ≠ .undefv) :
    jsNullish v = false := by
  cases v <;> first
    | rfl
    | exact absurd rfl h1
    | exact absurd rfl h2

theorem objSet_append (acc : List (JStr × JSV)) (k : JStr) (v : JSV)
    (h : ∀ a ∈ acc, a.1 ≠ k) : objSet acc k v = acc ++ [(k, v)] := by
  unfold objSet
  rw [if_neg]
  simp only [List.any_eq_true, decide_eq_true_eq, not_exists, not_and]
  exact fun a ha => h a ha

theorem extractGo_map (language : JStr) (entries : List (JStr × JSV)) :
    ∀ acc, (entries.map Prod.fst).Nodup →
      (∀ en ∈ entries, ∀ a ∈ acc, a.1 ≠ en.1) →
      (∀ en ∈ entries, (jsTruthy en.2 ∧ typeofObject en.2 ∧
          hasProp en.2 namesKey) →
        jsNullish (propGetD en.2 namesKey) = false) →
      extractGo language entries acc =
        .ok (.obj (acc ++
          entries.map (fun en => (en.1, rewriteChild language en.2)))) := by
  induction entries with
  | nil => intro acc _ _ _; simp [extractGo]
  | cons hd tl ih =>
    obtain ⟨k, v⟩ := hd
    intro acc hnd hdisj herr
    have hdisj1 : ∀ a ∈ acc, a.1 ≠ k := fun a ha => hdisj (k, v) (by simp) a ha
    have hnd1 : (tl.map Prod.fst).Nodup := (List.nodup_cons.mp hnd).2
    have hknot : k ∉ tl.map Prod.fst := (List.nodup_cons.mp hnd).1
    have herr1 : ∀ en ∈ tl, (jsTruthy en.2 ∧ typeofObject en.2 ∧
        hasProp en.2 namesKey) →
        jsNullish (propGetD en.2 namesKey) = false :=
      fun en hen => herr en (by simp [hen])
    have hdisj2 : ∀ (X : JSV), ∀ en ∈ tl, ∀ a ∈ acc ++ [(k, X)], a.1 ≠ en.1 := by
      intro X en hen a ha
      rcases List.mem_append.mp ha with h1 | h1
      · exact hdisj en (by simp [hen]) a h1
      · have ha2 : a = (k, X) := by simpa using h1
        subst ha2
        intro hcontra
        dsimp only at hcontra
        exact hknot (by rw [hcontra]; exact List.mem_map_of_mem Prod.fst hen)
    by_cases hc : jsTruthy v ∧ typeofObject v ∧ hasProp v namesKey
    · obtain ⟨f, rfl⟩ := hasProp_obj v namesKey hc.2.2
      have hnn := herr (k, .obj f) (by simp) hc
      have hstep : extractGo language ((k, JSV.obj f) :: tl) acc =
          extractGo language tl (objSet acc k (JSV.obj (objSet f nameKey
            (chooseName (propGetD (JSV.obj f) namesKey) language)))) := by
        simp only [extractGo]
        rw [if_pos hc, if_neg (by simp [hnn])]
      rw [hstep, objSet_append acc k _ hdisj1,
        ih (acc ++ [(k, JSV.obj (objSet f nameKey
          (chooseName (propGetD (JSV.obj f) namesKey) language)))]) hnd1
          (hdisj2 _) herr1]
      have hrw : rewriteChild language (JSV.obj f) =
          JSV.obj (objSet f nameKey
            (chooseName (propGetD (JSV.obj f) namesKey) language)) := by
        simp [rewriteChild, hc]
      simp [hrw]
    · have hstep : extractGo language ((k, v) :: tl) acc =
          extractGo language tl (objSet acc k v) := by
        simp only [extractGo]
        rw [if_neg hc]
      rw [hstep, objSet_append acc k v hdisj1,
        ih (acc ++ [(k, v)]) hnd1 (hdisj2 v) herr1]
      have hrw : rewriteChild language v = v := by
        simp [rewriteChild, hc]
      simp [hrw]

/-- C8 amended: `getWithLanguage` rewrites only the **immediate**
top-level entries of the looked-up object: each direct child value that is
a truthy object with an own `names` property gets a `name` field chosen as
`names[language] || names.en || firstValue(names)`; all other entries —
including maps with `names` at deeper nesting levels, and the root object
itself — are returned unchanged. -/
theorem C8_language_rewrite (ipToBytesF : JStr → Option (List Nat))
    (fuel : Nat) (s : ParserState) (ip language : JStr)
    (fields : List (JStr × JSV)) (s' : ParserState)
    (hget : get ipToBytesF fuel s ip = some (.obj fields, s'))
    (hnd : (fields.map Prod.fst).Nodup)
    (herr : ∀ en ∈ fields, (jsTruthy en.2 ∧ typeofObject en.2 ∧
        hasProp en.2 namesKey) →
      jsNullish (propGetD en.2 namesKey) = false) :
    getWithLanguage ipToBytesF fuel s ip language =
      some (.ok (.obj
        (fields.map (fun en => (en.1, rewriteChild language en.2)))), s') := by
  simp only [getWithLanguage, hget]
  rw [if_neg (by simp [jsTruthy])]
  rw [show extractLanguageData (.obj fields) language =
    extractGo language fields [] from rfl]
  rw [extractGo_map language fields [] hnd (by simp) herr]
  simp

def jaKey : JStr := asciiKey "ja"
def frKey : JStr := asciiKey "fr"
def cityKey : JStr := asciiKey "city"

/-- The UTF-8 bytes of the JS string "東京". -/
def tokyoJa : JStr := [0xe6, 0x9d, 0xb1, 0xe4, 0xba, 0xac]

/-- `{"en": "Tokyo", "ja": "東京"}`. -/
def namesObj : JSV := .obj [(enKey, .str (asciiKey "Tokyo")), (jaKey, .str tokyoJa)]

/-- `{"names": {"en": "Tokyo", "ja": "東京"}}` — the claim's looked-up map. -/
def tokyoObj : JSV := .obj [(namesKey, namesObj)]

def ip8 : JStr := asciiKey "1.2.3.4"

/-- Parser state whose cache already holds `tokyoObj` for `1.2.3.4`,
making the lookup return it (valid components present). -/
def s8 : ParserState :=
  { data := []
    metadata := some mW
    walker := some wW
    decoder := some ⟨[], 22⟩
    cache := some ⟨[(ip8 ++ colonFull, tokyoObj)], 1000⟩
    optCacheSize := 1000
    optEnableCache := true }

/-- C8 counterexample: for the looked-up map
`{"names": {"en": "Tokyo", "ja": "東京"}}` itself, `getWithLanguage`
with language "ja" returns the map **unchanged** — no `"name"` field is
added anywhere, contradicting the claim's required `"name": "東京"` (the
code only inspects the direct child values of the root for a `names`
property, and the child here is the `names` map itself, which has no own
`names` key). -/
theorem C8_counterexample :
    getWithLanguage (fun _ => none) 5 s8 ip8 jaKey =
      some (.ok tokyoObj, s8) ∧
    propGet tokyoObj nameKey = none ∧
    propGet namesObj nameKey = none :=
  ⟨rfl, rfl, rfl⟩

/-- Parser state caching `{"city": {"names": …}}` for `1.2.3.4`. -/
def s8c : ParserState :=
  { data := []
    metadata := some mW
    walker := some wW
    decoder := some ⟨[], 22⟩
    cache := some ⟨[(ip8 ++ colonFull, .obj [(cityKey, tokyoObj)])], 1000⟩
    optCacheSize := 1000
    optEnableCache := true }

/-- C8 witness for the amended theorem: with the `names` map one level
down (`{"city": {"names": …}}`), language "ja" adds `"name": "東京"` to
`city`, and the absent language "fr" falls back to English "Tokyo". -/
theorem C8_language_rewrite_witness :
    getWithLanguage (fun _ => none) 5 s8c ip8 jaKey =
      some (.ok (.obj [(cityKey, .obj [(namesKey, namesObj),
        (nameKey, .str tokyoJa)])]), s8c) ∧
    getWithLanguage (fun _ => none) 5 s8c ip8 frKey =
      some (.ok (.obj [(cityKey, .obj [(namesKey, namesObj),
        (nameKey, .str (asciiKey "Tokyo"))])]), s8c) := by
  constructor
  · have h := C8_language_rewrite (fun _ => none) 5 s8c ip8 jaKey
      [(cityKey, tokyoObj)] s8c rfl (by simp) ?herr
    · exact h
    case herr =>
      intro en hen hc
      have he : en = (cityKey, tokyoObj) := by simpa using hen
      subst he
      rfl
  · have h := C8_language_rewrite (fun _ => none) 5 s8c ip8 frKey
      [(cityKey, tokyoObj)] s8c rfl (by simp) ?herr
    · exact h
    case herr =>
      intro en hen hc
      have he : en = (cityKey, tokyoObj) := by simpa using hen
      subst he
      rfl

/-! ### C5 amended: termination on forward-pointer images -/

/-- All pointer-tagged bytes of the image resolve to a strictly larger
offset than their own position (which rules out self-referential and
cyclic pointer chains). -/
def PtrFwd (img : Image) (base : Int) : Prop :=
  ∀ o : Int, 0 ≤ o → o < (img.length : Int) → (jsByte img o) >>> 5 = 1 →
    o < (decodePointer img base (jsByte img o) (o + 1)).1

theorem jsByte_oob (img : Image) (o : Int) (h : (img.length : Int) ≤ o) :
    jsByte img o = 0 := by
  unfold jsByte
  rw [if_pos (by omega)]
  rw [List.getD_eq_default]
  · rfl
  · omega

theorem jsByte_ne_zero (img : Image) (o : Int) (h : jsByte img o ≠ 0) :
    0 ≤ o ∧ o < (img.length : Int) := by
  unfold jsByte at h
  split at h
  · rename_i h0
    refine ⟨h0, ?_⟩
    by_contra hge
    push_neg at hge
    rw [List.getD_eq_default] at h
    · exact h rfl
    · omega
  · exact absurd rfl h

theorem sizeFromCtrlByte_fst_ge (img : Image) (ctrl : Nat) (off : Int) :
    off ≤ (sizeFromCtrlByte img ctrl off).1 := by
  unfold sizeFromCtrlByte
  dsimp only
  split_ifs <;> dsimp only <;> omega

/-- Job offset, for the monotonicity statement. -/
def jobOffset : DJob → Int
  | .dec o => o
  | .byType _ o _ => o
  | .arrLoop _ o _ => o
  | .mapLoop _ o _ => o

/-- A `decode` entry advances the cursor by at least one byte (the control
byte); the other states never move it backwards. -/
def jobBump : DJob → Int
  | .dec _ => 1
  | _ => 0

theorem byTypeCore_offset (img : Image)
    (mapGo arrGo : Nat → Int → Option (Except String Cursor)) (typ : Nat)
    (o : Int) (size : Nat) (c : Cursor)
    (hmap : ∀ n oo cc, mapGo n oo = some (.ok cc) → oo ≤ cc.offset)
    (harr : ∀ n oo cc, arrGo n oo = some (.ok cc) → oo ≤ cc.offset)
    (h : byTypeCore img mapGo arrGo typ o size = some (.ok c)) :
    o ≤ c.offset := by
  unfold byTypeCore at h
  repeat' split at h
  all_goals
    first
    | exact Option.noConfusion h
    | (injection h with h2
       exact Except.noConfusion h2)
    | (injection h with h2
       injection h2 with h3
       subst h3
       dsimp only
       omega)
    | exact hmap _ _ _ h
    | exact harr _ _ _ h

set_option maxHeartbeats 2000000 in
theorem decodeRun_offset_mono (img : Image) (base : Int) :
    ∀ fuel (job : DJob) (c : Cursor),
      decodeRun img base fuel job = some (.ok c) →
      jobOffset job + jobBump job ≤ c.offset := by
  intro fuel
  induction fuel with
  | zero => intro job c h; exact absurd h (by simp [decodeRun])
  | succ fuel ih =>
    intro job c h
    cases job with
    | dec o =>
      simp only [decodeRun] at h
      split at h
      · -- pointer branch
        split at h
        · exact Option.noConfusion h
        · injection h with h2
          exact Except.noConfusion h2
        · rename_i c2 heq
          injection h with h2
          injection h2 with h3
          subst h3
          have hsnd := decodePointer_snd img base (jsByte img o) o
          have hnn : (0 : Int) ≤ ((jsByte img o >>> 3) &&& 3 : Nat) :=
            Int.natCast_nonneg _
          simp only [jobOffset, jobBump, hsnd]
          try dsimp only
          omega
      · -- extended / direct type
        split at h
        · injection h with h2
          exact Except.noConfusion h2
        · rename_i te heq
          have h1 := ih _ _ h
          simp only [jobOffset, jobBump] at h1 ⊢
          have h2 := sizeFromCtrlByte_fst_ge img (jsByte img o) te.2
          have h3 : o + 1 ≤ te.2 := by
            split at heq
            · split at heq
              · exact Except.noConfusion heq
              · injection heq with h4
                rw [← h4]
                dsimp only
                omega
            · injection heq with h4
              rw [← h4]
          omega
    | byType typ o size =>
      simp only [decodeRun] at h
      simp only [jobOffset, jobBump]
      have hres := byTypeCore_offset img _ _ typ o size c
        (fun n oo cc hh => by
          have h5 := ih (.mapLoop n oo []) cc hh
          simpa [jobOffset, jobBump] using h5)
        (fun n oo cc hh => by
          have h5 := ih (.arrLoop n oo []) cc hh
          simpa [jobOffset, jobBump] using h5)
        h
      omega
    | arrLoop n o acc =>
      cases n with
      | zero =>
        simp only [decodeRun] at h
        injection h with h2
        injection h2 with h3
        subst h3
        simp [jobOffset, jobBump]
      | succ m =>
        simp only [decodeRun] at h
        split at h
        · exact Option.noConfusion h
        · injection h with h2
          exact Except.noConfusion h2
        · rename_i c1 heq
          have h1 := ih _ _ heq
          have h2 := ih _ _ h
          simp only [jobOffset, jobBump] at h1 h2 ⊢
          omega
    | mapLoop n o acc =>
      cases n with
      | zero =>
        simp only [decodeRun] at h
        injection h with h2
        injection h2 with h3
        subst h3
        simp [jobOffset, jobBump]
      | succ m =>
        simp only [decodeRun] at h
        split at h
        · exact Option.noConfusion h
        · injection h with h2
          exact Except.noConfusion h2
        · rename_i k heqk
          split at h
          · exact Option.noConfusion h
          · injection h with h2
            exact Except.noConfusion h2
          · rename_i v heqv
            have h1 := ih _ _ heqk
            have h2 := ih _ _ heqv
            have h3 := ih _ _ h
            simp only [jobOffset, jobBump] at h1 h2 h3 ⊢
            omega

theorem decodeRun_dec_oob (img : Image) (base : Int) (off : Int) (fuel : Nat)
    (h : (img.length : Int) ≤ off) :
    decodeRun img base (fuel + 1) (.dec off) =
      some (.error "Invalid Extended Type") := by
  have h0 : jsByte img off = 0 := jsByte_oob img off h
  have h1 : jsByte img (off + 1) = 0 := jsByte_oob img (off + 1) (by omega)
  simp [decodeRun, h0, h1]

theorem decodeRun_dec_ok_lt (img : Image) (base : Int) (off : Int)
    (fuel : Nat) (c : Cursor)
    (h : decodeRun img base fuel (.dec off) = some (.ok c)) :
    off < (img.length : Int) := by
  by_contra hge
  push_neg at hge
  cases fuel with
  | zero => simp [decodeRun] at h
  | succ n =>
    rw [decodeRun_dec_oob img base off n hge] at h
    injection h with h2
    exact Except.noConfusion h2

/-- Remaining-byte potential used by the recursion budget. -/
def uB (L : Nat) (o : Int) : Nat := ((L : Int) + 2 - o).toNat

/-- Recursion budget sufficient for each decoder state on a
forward-pointer image. -/
def bud (L : Nat) : DJob → Nat
  | .dec o => 3 * uB L o + 1
  | .byType _ o _ => 3 * uB L o + 3
  | .arrLoop _ o _ => 3 * uB L o + 2
  | .mapLoop _ o _ => 3 * uB L o + 2

theorem byTypeCore_ne_none (img : Image)
    (mapGo arrGo : Nat → Int → Option (Except String Cursor)) (typ : Nat)
    (o : Int) (size : Nat)
    (hmap : mapGo size o ≠ none) (harr : arrGo size o ≠ none) :
    byTypeCore img mapGo arrGo typ o size ≠ none := by
  unfold byTypeCore
  repeat' split
  all_goals first
    | exact hmap
    | exact harr
    | simp

set_option maxHeartbeats 1000000 in
theorem decodeRun_budget (img : Image) (base : Int) (hfwd : PtrFwd img base) :
    ∀ fuel (job : DJob), bud img.length job ≤ fuel →
      decodeRun img base fuel job ≠ none := by
  intro fuel
  induction fuel with
  | zero =>
    intro job hb
    exfalso
    cases job <;> simp [bud] at hb
  | succ fuel ih =>
    intro job hb
    cases job with
    | dec o =>
      simp only [decodeRun]
      split
      · -- pointer branch
        rename_i hty
        have hne : jsByte img o ≠ 0 := by
          intro h0
          rw [h0] at hty
          simp at hty
        obtain ⟨hge0, hlt⟩ := jsByte_ne_zero img o hne
        have htgt := hfwd o hge0 hlt hty
        have hbt : bud img.length
            (.dec (decodePointer img base (jsByte img o) (o + 1)).1) ≤ fuel := by
          simp only [bud, uB] at hb ⊢
          omega
        cases hres : decodeRun img base fuel
            (.dec (decodePointer img base (jsByte img o) (o + 1)).1) with
        | none => exact absurd hres (ih _ hbt)
        | some r => cases r <;> simp [hres]
      · -- extended / direct type
        rename_i hty
        split
        · simp
        · rename_i te heq
          apply ih
          have h2 := sizeFromCtrlByte_fst_ge img (jsByte img o) te.2
          have h3 : o + 1 ≤ te.2 ∧ o < (img.length : Int) := by
            split at heq
            · split at heq
              · exact Except.noConfusion heq
              · rename_i htmp
                injection heq with h4
                have hb1 : jsByte img (o + 1) ≠ 0 := by omega
                have hbd := jsByte_ne_zero img (o + 1) hb1
                constructor
                · rw [← h4]
                  dsimp only
                  omega
                · omega
            · rename_i hty0
              injection heq with h4
              have hctrl : jsByte img o ≠ 0 := by
                intro h0
                rw [h0] at hty0
                simp at hty0
              have hbd := jsByte_ne_zero img o hctrl
              constructor
              · rw [← h4]
              · omega
          simp only [bud, uB] at hb ⊢
          omega
    | byType typ o size =>
      simp only [decodeRun]
      apply byTypeCore_ne_none
      · exact ih (.mapLoop size o []) (by simp only [bud, uB] at hb ⊢; omega)
      · exact ih (.arrLoop size o []) (by simp only [bud, uB] at hb ⊢; omega)
    | arrLoop n o acc =>
      cases n with
      | zero => simp [decodeRun]
      | succ m =>
        simp only [decodeRun]
        cases hres : decodeRun img base fuel (.dec o) with
        | none =>
          exact absurd hres (ih _ (by simp only [bud, uB] at hb ⊢; omega))
        | some r =>
          cases r with
          | error e => simp
          | ok c =>
            have hlt := decodeRun_dec_ok_lt img base o fuel c hres
            have hmono := decodeRun_offset_mono img base fuel _ _ hres
            simp only [jobOffset, jobBump] at hmono
            exact ih (.arrLoop m c.offset (acc ++ [c.value]))
              (by simp only [bud, uB] at hb ⊢; omega)
    | mapLoop n o acc =>
      cases n with
      | zero => simp [decodeRun]
      | succ m =>
        simp only [decodeRun]
        cases hresk : decodeRun img base fuel (.dec o) with
        | none =>
          exact absurd hresk (ih _ (by simp only [bud, uB] at hb ⊢; omega))
        | some rk =>
          cases rk with
          | error e => simp
          | ok k =>
            have hltk := decodeRun_dec_ok_lt img base o fuel k hresk
            have hmonok := decodeRun_offset_mono img base fuel _ _ hresk
            simp only [jobOffset, jobBump] at hmonok
            cases hresv : decodeRun img base fuel (.dec k.offset) with
            | none =>
              exact absurd hresv
                (ih _ (by simp only [bud, uB] at hb ⊢; omega))
            | some rv =>
              cases rv with
              | error e => simp [hresv]
              | ok v =>
                have hmonov := decodeRun_offset_mono img base fuel _ _ hresv
                simp only [jobOffset, jobBump] at hmonov
                simp only [hresv]
                exact ih (.mapLoop m v.offset
                    (objSet acc (keyToString k.value) v.value))
                  (by simp only [bud, uB] at hb ⊢; omega)

/-- C5 amended: the source lacks the defensive recursion cap, so `decode`
need not terminate on malformed images (see the self-pointer
counterexample); termination does hold whenever pointer chains cannot
cycle — formalised here as: if every pointer-tagged byte targets a
strictly larger offset, a recursion budget of `3·imageLength + 7`
suffices for `decode` at any nonnegative offset. -/
theorem C5_forward_termination (img : Image) (base : Int)
    (hfwd : PtrFwd img base) (off : Int) (hoff : 0 ≤ off) :
    decodeF img base (3 * img.length + 7) off ≠ none := by
  apply decodeRun_budget img base hfwd
  simp only [bud, uB]
  omega

/-- C5 witness: a 3-byte image whose single pointer jumps forward (to an
out-of-range offset, where decoding errors out finitely). -/
theorem C5_forward_termination_witness :
    decodeF [0x21, 0x00, 0xE0] 0 (3 * 3 + 7) 0 ≠ none := by
  have hfwd : PtrFwd [0x21, 0x00, 0xE0] 0 := by
    intro o h0 hlt hty
    have ho : o = 0 ∨ o = 1 ∨ o = 2 := by
      simp only [List.length] at hlt
      omega
    rcases ho with rfl | rfl | rfl
    · decide
    · exact absurd hty (by decide)
    · exact absurd hty (by decide)
  exact C5_forward_termination [0x21, 0x00, 0xE0] 0 hfwd 0 (by decide)

end MMDB
